import Mathlib

/-!
Verification of the precipitation ingestion pipeline.

A shallow embedding, in Lean 4, of the core data-manipulation functions of
the `precipitation` repository: date parsing (`utils.convert_date`),
wide/long conversion (`data_csv.precip_table_to_long`,
`data_csv.precip_table_to_wide`), the batching generator
(`data_csv.provide_data_for_dates`), the staged database insert
(`database.PrecipitationDB.insert_precip_data`, modelled as the trace of
database operations it performs), the download guard
(`download.download_precip_date`) and the reconciliation date-diffs
(`data_db_csv.update_db_precipitation_from_dir`, `save_new_data`).

Precipitation amounts are modelled as `Option ℚ` (pandas `NaN` cells are
`none`).  Timestamps are modelled as the strings the source itself carries
around (`precip_table_to_long` casts the datetime column to `str`).
-/

set_option autoImplicit false

namespace Precip

/-! ## Calendar dates (`datetime.date` / `datetime.datetime` at midnight) -/

/-- A calendar date, as produced by Python's `datetime` parsing helpers.
Python enforces `1 ≤ year ≤ 9999`; validity is checked by `isValidDate`. -/
structure Date where
  year : Nat
  month : Nat
  day : Nat
deriving DecidableEq, Repr

/-- Leap year test of the Gregorian calendar (`calendar.isleap`). -/
def isLeapYear (y : Nat) : Bool :=
  (y % 4 == 0 && y % 100 != 0) || y % 400 == 0

/-- Number of days of month `m` of year `y`. -/
def daysInMonth (y m : Nat) : Nat :=
  if m = 2 then (if isLeapYear y then 29 else 28)
  else if m = 4 ∨ m = 6 ∨ m = 9 ∨ m = 11 then 30
  else 31

/-- Validity check a Python `datetime` constructor performs on its
year/month/day arguments. -/
def isValidDate (d : Date) : Bool :=
  1 ≤ d.year && d.year ≤ 9999 &&
  1 ≤ d.month && d.month ≤ 12 &&
  1 ≤ d.day && d.day ≤ daysInMonth d.year d.month

/-! ## Digit helpers for parsing and printing -/

/-- Numeric value of a decimal digit character. -/
def digitVal (c : Char) : Nat := c.toNat - 48

/-- Decimal digit character for `n % 10`. -/
def digitChar10 (n : Nat) : Char := Char.ofNat (48 + n % 10)

/-- Value of a list of decimal digit characters, assuming all are digits. -/
def digitsVal (cs : List Char) : Nat :=
  cs.foldl (fun acc c => 10 * acc + digitVal c) 0

/-- Python's `datetime.fromisoformat` restricted to the date-only `YYYY-MM-DD`
strings this pipeline feeds it: ten characters, dashes at positions 4 and 7,
digits elsewhere, and a valid calendar date. -/
def date_fromisoformat (s : String) : Option Date :=
  match s.toList with
  | [y1, y2, y3, y4, '-', m1, m2, '-', d1, d2] =>
    if [y1, y2, y3, y4, m1, m2, d1, d2].all Char.isDigit then
      let dt : Date := ⟨digitsVal [y1, y2, y3, y4], digitsVal [m1, m2], digitsVal [d1, d2]⟩
      if isValidDate dt then some dt else none
    else none
  | _ => none

/-- Python's `datetime.strptime(s, '%d.%m.%Y')`: a 1–2 digit day, `'.'`, a 1–2 digit
month, `'.'`, a 4-digit year, and the calendar date must be valid. -/
def strptime_dmy (s : String) : Option Date :=
  let chk (ds ms ys : List Char) : Option Date :=
    if (ds ++ ms ++ ys).all Char.isDigit then
      let dt : Date := ⟨digitsVal ys, digitsVal ms, digitsVal ds⟩
      if isValidDate dt then some dt else none
    else none
  match s.toList.splitOn '.' with
  | [ds, ms, ys] =>
    if (ds.length = 1 ∨ ds.length = 2) ∧ (ms.length = 1 ∨ ms.length = 2) ∧ ys.length = 4 then
      chk ds ms ys
    else none
  | _ => none

/-- The function `utils.convert_date`: try ISO format first, fall back to `%d.%m.%Y`;
`none` models the `ValueError` raised when both formats fail. -/
def convert_date (s : String) : Option Date :=
  match date_fromisoformat s with
  | some d => some d
  | none => strptime_dmy s

/-! ## Printing dates and mid-hour timestamps

`precip_table_to_long` stores `str(convert_date(date) + timedelta(hours=h - .5))`
in the `datetime` column; for the hour labels `1..24` that the pipeline's
tables carry, this is the string `YYYY-MM-DD HH:30:00` with `HH = h - 1`.
-/

/-- Two-digit zero-padded decimal rendering of `n < 100`. -/
def pad2 (n : Nat) : String :=
  ⟨[digitChar10 (n / 10), digitChar10 n]⟩

/-- Four-digit zero-padded decimal rendering of `n < 10000` (Python years
never exceed 9999). -/
def pad4 (n : Nat) : String :=
  ⟨[digitChar10 (n / 1000), digitChar10 (n / 100), digitChar10 (n / 10), digitChar10 n]⟩

/-- Rendering `date.isoformat()` / the date part of `str(datetime)`. -/
def isoDateStr (d : Date) : String :=
  pad4 d.year ++ "-" ++ pad2 d.month ++ "-" ++ pad2 d.day

/-- Rendering `str(convert_date(date) + pd.to_timedelta(h - .5, unit='hours'))` for an
hour label `h` with `1 ≤ h ≤ 24`: the midpoint of the hour-long interval
ending at hour `h`, i.e. `(h-1):30:00` on day `d`. -/
def midHourStr (d : Date) (h : Nat) : String :=
  isoDateStr d ++ " " ++ pad2 (h - 1) ++ ":30:00"

/-- Minutes after midnight encoded in the time-of-day part of a
`YYYY-MM-DD HH:MM:SS` timestamp string. -/
def minutesOfDay (s : String) : Option Nat :=
  match s.toList with
  | [_, _, _, _, '-', _, _, '-', _, _, ' ', h1, h2, ':', m1, m2, ':', s1, s2] =>
    if [h1, h2, m1, m2, s1, s2].all Char.isDigit then
      some (60 * digitsVal [h1, h2] + digitsVal [m1, m2])
    else none
  | _ => none

/-- Hour-of-day encoded in a `YYYY-MM-DD HH:MM:SS` timestamp string, as
computed by `pd.DatetimeIndex(df['datetime']).hour` in
`precip_table_to_wide`; `none` models a parse failure. -/
def hourOfDatetimeStr (s : String) : Option Nat :=
  match s.toList with
  | [_, _, _, _, '-', _, _, '-', _, _, ' ', h1, h2, ':', m1, m2, ':', s1, s2] =>
    if [h1, h2, m1, m2, s1, s2].all Char.isDigit && digitsVal [h1, h2] < 24 then
      some (digitsVal [h1, h2])
    else none
  | _ => none

/-! ## Wide and long tables -/

/-- A one-day precipitation table in wide format (a pandas `DataFrame`
with a station-name column followed by one column per hour): `stationCol`
is the *label* of the station column (`"Stanice"` in every table the
pipeline writes), `hourCols` the labels of the remaining columns (`"1"`,
…, `"24"`), and each row is a station name together with the cells of the
hour columns in column order (`none` = `NaN`). -/
structure WideTable where
  stationCol : String
  hourCols : List String
  rows : List (String × List (Option ℚ))
deriving DecidableEq, Repr

/-- A row of the long format produced by `precip_table_to_long`:
columns `station`, `amount`, `datetime` (the datetime already cast to
`str` by the source). -/
structure LongRecord where
  station : String
  amount : Option ℚ
  datetime : String
deriving DecidableEq, Repr

/-- The hour-column labels `"1"`..`"24"` of every `WideDayTable` the
pipeline reads or writes. -/
def hourColNames : List String := (List.range 24).map (fun h => toString (h + 1))

/-- Conversion `int(label)` on an hour-column label, restricted to the labels
`"1"`..`"24"` occurring in the pipeline's tables (other labels are out of
the modelled domain and yield `none`). -/
def hourLabel (s : String) : Option Nat :=
  match s.toList with
  | [] => none
  | cs =>
    if cs.all Char.isDigit then
      let n := digitsVal cs
      if 1 ≤ n ∧ n ≤ 24 then some n else none
    else none

/-- Conversion `astype(int)` over the whole list of hour-column labels. -/
def hourLabels : List String → Option (List Nat)
  | [] => some []
  | s :: rest =>
    match hourLabel s, hourLabels rest with
    | some h, some hs => some (h :: hs)
    | _, _ => none

/-- The function `data_csv.precip_table_to_long`: `pd.melt` with `id_vars=['Stanice']`
(requiring the station column to be labelled `Stanice`), stacking the hour
columns in column order, each with all rows in row order; the `datetime`
column is `convert_date(date) + (hour − 0.5) hours`, cast to `str`.
`none` models the exceptions raised on a missing `Stanice` column, an
unparseable date, or an hour label outside the modelled domain. -/
def precip_table_to_long (t : WideTable) (date : String) : Option (List LongRecord) :=
  if t.stationCol = "Stanice" then
    match convert_date date, hourLabels t.hourCols with
    | some d, some hs =>
      some ((hs.enum.map (fun p =>
        t.rows.map (fun row => ⟨row.1, row.2.getD p.1 none, midHourStr d p.2⟩))).flatten)
    | _, _ => none
  else none

/-- Insertion of `a` into an ascending list, keeping it ascending. -/
def insertAsc {α : Type} [LinearOrder α] (a : α) : List α → List α
  | [] => [a]
  | b :: rest => if a ≤ b then a :: b :: rest else b :: insertAsc a rest

/-- Sorted list of the distinct elements of `l` (`pandas.pivot` sorts the
row index and the columns ascending). -/
def sortedDistinct {α : Type} [DecidableEq α] [LinearOrder α] (l : List α) : List α :=
  l.dedup.foldr insertAsc []

/-- The function `data_csv.precip_table_to_wide`: extract `hour = datetime.hour + 1`
from each record, then `pivot(index='station', columns='hour',
values='amount')`, sort the station index and the hour columns ascending,
stringify the hour columns, and `reset_index()`.  The final
`wide.rename(columns={'station': 'Stanice'})` of the source is a pandas
no-op (its result is discarded, `inplace` not being set), so the station
column keeps the label `station`.  `none` models a `DatetimeIndex` parse
failure or the `ValueError` pandas raises when `pivot` meets duplicate
`(station, hour)` pairs. -/
def precip_table_to_wide (recs : List LongRecord) : Option WideTable :=
  match recs.mapM (fun r => (hourOfDatetimeStr r.datetime).map (fun h => (r.station, h + 1, r.amount))) with
  | none => none
  | some triples =>
    if (triples.map (fun p => (p.1, p.2.1))).Nodup then
      let stations := sortedDistinct (triples.map (fun p => p.1))
      let hcols := sortedDistinct (triples.map (fun p => p.2.1))
      some ⟨"station", hcols.map toString,
        stations.map (fun s => (s, hcols.map (fun h =>
          (triples.find? (fun p => p.1 == s && p.2.1 == h)).bind (fun p => p.2.2))))⟩
    else none

/-! ## The batch generator `data_csv.provide_data_for_dates`

The generator reads each date's CSV (modelled by an arbitrary `read`
function), converts it to long format, and accumulates records into the
current batch, yielding the batch when adding the next date would exceed
`max_rows`.  Its observable behaviour is the list of yielded batches, the
messages logged at error severity, and the exception it ends with (if
any); a raised exception propagates to the consumer, so the pending
accumulator batch is never yielded. -/

/-- Errors the generator can raise: the `RuntimeError` of the too-large
branch, or an exception propagating out of `read_precip_table` /
`precip_table_to_long`. -/
inductive GenErr where
  | batchTooLarge (msg : String)
  | conversionFailed (date : String)
deriving DecidableEq, Repr

/-- Observable outcome of consuming the generator to the end: yielded
batches in order, error-severity log messages in order, and the exception
that terminated it, if any. -/
structure GenOut where
  batches : List (List LongRecord)
  errLog : List String
  raised : Option GenErr
deriving DecidableEq, Repr

/-- The message built and logged by `provide_data_for_dates` when one
date's data exceeds `max_rows`. -/
def batchTooLargeMsg (date : String) (n max_rows : Nat) : String :=
  "Data for " ++ date ++ " has more rows (" ++ toString n ++
  ") than allowed by `max_rows` (" ++ toString max_rows ++
  "). Consider increasing `max_rows`."

/-- The loop of `provide_data_for_dates`: `acc` is the `df_batch`
accumulator (`none` = Python `None`). -/
def provideAux (read : String → WideTable) (max_rows : Nat) :
    List String → Option (List LongRecord) → GenOut
  | [], none => ⟨[], [], none⟩
  | [], some b => ⟨[b], [], none⟩
  | date :: rest, acc =>
    match precip_table_to_long (read date) date with
    | none => ⟨[], [], some (GenErr.conversionFailed date)⟩
    | some df =>
      if df.length > max_rows then
        let msg := batchTooLargeMsg date df.length max_rows
        ⟨[], [msg], some (GenErr.batchTooLarge msg)⟩
      else
        match acc with
        | none => provideAux read max_rows rest (some df)
        | some b =>
          if b.length + df.length ≤ max_rows then
            provideAux read max_rows rest (some (b ++ df))
          else
            let out := provideAux read max_rows rest (some df)
            ⟨b :: out.batches, out.errLog, out.raised⟩

/-- The generator `data_csv.provide_data_for_dates`, fully consumed. -/
def provide_data_for_dates (read : String → WideTable) (dates : List String)
    (max_rows : Nat) : GenOut :=
  provideAux read max_rows dates none

/-- The per-date long-format chunks the generator assembles its batches
from, in input order (dates whose conversion raises contribute nothing). -/
def dateChunks (read : String → WideTable) (dates : List String) : List (List LongRecord) :=
  dates.filterMap (fun d => precip_table_to_long (read d) d)

/-! ## The staged insert `database.PrecipitationDB.insert_precip_data`

Modelled as the trace of database operations performed on the single
connection: create the temporary staging table, bulk-insert each batch
(after `dropna`), then run the join-insert into `hourly_precip` and
commit. -/

/-- One database operation performed by `insert_precip_data`. -/
inductive DBEv where
  | createTmp
  | insertTmp (rows : List LongRecord)
  | joinInsert
  | commit
deriving DecidableEq, Repr

/-- Pandas `d.dropna()` on a long-format batch: station and datetime are never
null, so exactly the rows with a null amount are dropped. -/
def dropna (recs : List LongRecord) : List LongRecord :=
  recs.filter (fun r => r.amount.isSome)

/-- The `for d in data:` loop body of `insert_precip_data`: one staging
bulk-insert per batch. -/
def insertLoop : List (List LongRecord) → List DBEv
  | [] => []
  | d :: rest => DBEv.insertTmp (dropna d) :: insertLoop rest

/-- The method `database.PrecipitationDB.insert_precip_data` as its operation trace:
`CREATE TEMPORARY TABLE`, then the loop over batches, then a single
join-insert followed by a single commit. -/
def insert_precip_data (data : List (List LongRecord)) : List DBEv :=
  DBEv.createTmp :: (insertLoop data ++ [DBEv.joinInsert, DBEv.commit])

/-- Recognises a commit event. -/
def isCommit : DBEv → Bool
  | DBEv.commit => true
  | _ => false

/-- Recognises a join-insert event. -/
def isJoinInsert : DBEv → Bool
  | DBEv.joinInsert => true
  | _ => false

/-! ## The download guard `download.download_precip_date` -/

/-- Python's `datetime.date.toordinal`: day 1 is `0001-01-01`.  Mirrors the
proleptic-Gregorian count CPython computes (`_days_before_year` +
`_days_before_month` + `day`). -/
def toordinal (d : Date) : Nat :=
  365 * (d.year - 1) + (d.year - 1) / 4 - (d.year - 1) / 100 + (d.year - 1) / 400 +
    ((List.range 12).map (fun m =>
      if m + 1 < d.month then daysInMonth d.year (m + 1) else 0)).sum +
    d.day

/-- The errors `download_precip_date` can raise: an unparseable date
string (`date.fromisoformat`), the out-of-range `ValueError`, or the
`RuntimeError` for a downloaded-date mismatch. -/
inductive DLErr where
  | badDateString
  | range
  | mismatch
deriving DecidableEq, Repr

/-- The function `download.download_precip_date`, with the network modelled as an
oracle `fetch` standing for `download_precip_offset` (it returns the wide
table and the measurement date parsed from the response).  The first
component of the result is the list of day-offsets actually fetched over
the network; the range check precedes any fetch. -/
def download_precip_date (today : Date) (fetch : Int → WideTable × Date)
    (dat : String) (allow_today : Bool) : List Int × Except DLErr WideTable :=
  match date_fromisoformat dat with
  | none => ([], Except.error DLErr.badDateString)
  | some dd =>
    let offset : Int := (toordinal today : Int) - (toordinal dd : Int)
    let offset_min : Int := if allow_today then 0 else 1
    let offset_max : Int := 7
    if offset < offset_min ∨ offset > offset_max then
      ([], Except.error DLErr.range)
    else
      let fetched := fetch offset
      if convert_date dat = some fetched.2 then
        ([offset], Except.ok fetched.1)
      else
        ([offset], Except.error DLErr.mismatch)

/-! ## Reconciliation: date-set differences -/

/-- The date diff of `data_db_csv.update_db_precipitation_from_dir`:
`[d for d in dates_csv if d not in dates_db]`. -/
def missing_dates (dates_csv dates_db : List String) : List String :=
  dates_csv.filter (fun d => !dates_db.contains d)

/-- The date diff of `save_new_data.save_new_data`:
`set(dates_recent) - set(dates_csv)`. -/
def dates_new (dates_recent dates_csv : List String) : Finset String :=
  dates_recent.toFinset \ dates_csv.toFinset

/-! ## Concrete tables used in example instantiations -/

/-- A complete one-station wide table (no missing cells). -/
def exWide : WideTable :=
  ⟨"Stanice", hourColNames, [("A", List.replicate 24 (some 2))]⟩

/-- The one-station table of end-to-end scenario B: hour `"1"` is `2.0`,
all other hours null. -/
def exWideB : WideTable :=
  ⟨"Stanice", hourColNames, [("A", some 2 :: List.replicate 23 none)]⟩

/-- A read function serving an empty-rowed but well-formed table for every
date. -/
def exReadEmpty : String → WideTable :=
  fun _ => ⟨"Stanice", hourColNames, []⟩

/-- A read function serving a fixed two-cell, one-station table for every
date (each date converts to 2 long records). -/
def exReadSmall : String → WideTable :=
  fun _ => ⟨"Stanice", ["1", "2"], [("A", [some 1, some 2])]⟩

/-- A two-batch input to `insert_precip_data`. -/
def exTwoBatches : List (List LongRecord) :=
  [[⟨"A", some 1, "2024-03-05 00:30:00"⟩], [⟨"A", some 1, "2024-03-06 00:30:00"⟩]]

/-- The values of the hour-column labels `"1"`..`"24"`. -/
def hourNums : List Nat :=
  [1, 2, 3, 4, 5, 6, 7, 8, 9, 10, 11, 12, 13, 14, 15, 16, 17, 18, 19, 20, 21, 22, 23, 24]

/-! ## C7: date parsing -/

/-- C7: `convert_date` tries the ISO format `YYYY-MM-DD` first and falls
back to day-first `DD.MM.YYYY`; `"2023-10-02"` (accepted by the ISO
branch) and `"2.10.2023"` (rejected by the ISO branch, accepted by the
day-first branch) both yield 2 October 2023, while `"32.10.2023"` fails in
both branches because the calendar date is invalid. -/
theorem convert_date_formats :
    convert_date "2023-10-02" = some ⟨2023, 10, 2⟩ ∧
    convert_date "2.10.2023" = some ⟨2023, 10, 2⟩ ∧
    date_fromisoformat "2023-10-02" = some ⟨2023, 10, 2⟩ ∧
    date_fromisoformat "2.10.2023" = none ∧
    strptime_dmy "2.10.2023" = some ⟨2023, 10, 2⟩ ∧
    convert_date "32.10.2023" = none ∧
    date_fromisoformat "32.10.2023" = none ∧
    strptime_dmy "32.10.2023" = none := by
  decide

/-! ## C9: reconciliation as a pure set difference -/

/-- C9: both reconciliation date-diffs (the list comprehension of
`update_db_precipitation_from_dir` and the set difference of
`save_new_data`) are deterministic (re-running them on the same inputs is
re-evaluating a pure function), diffing a set against itself yields
nothing, and no already-persisted date is ever selected. -/
theorem missing_dates_pure_diff (D P : List String) :
    missing_dates D P = missing_dates D P ∧
    dates_new D P = dates_new D P ∧
    missing_dates D D = [] ∧
    dates_new D D = ∅ ∧
    ∀ d ∈ missing_dates D P, d ∉ P := by
  refine ⟨rfl, rfl, ?_, ?_, ?_⟩
  · rw [missing_dates, List.filter_eq_nil_iff]
    intro a ha
    simp [ha]
  · exact Finset.sdiff_self _
  · intro d hd
    have := List.of_mem_filter hd
    simpa using this

/-- C9 witness: scenario A's inputs — disk has 2024-01-01 and 2024-01-02,
the store has 2024-01-01; the selected date 2024-01-02 is not persisted. -/
theorem missing_dates_pure_diff_witness :
    "2024-01-02" ∈ missing_dates ["2024-01-01", "2024-01-02"] ["2024-01-01"] ∧
    "2024-01-02" ∉ ["2024-01-01"] :=
  ⟨by decide,
   (missing_dates_pure_diff ["2024-01-01", "2024-01-02"] ["2024-01-01"]).2.2.2.2
     "2024-01-02" (by decide)⟩

/-! ## C2: commit granularity of the staged insert -/

/-- C2 counterexample: on a two-batch input, `insert_precip_data` issues a
single commit (and a single join-insert), not one per batch as the claim
states. -/
theorem insert_commit_once_counterexample :
    exTwoBatches.length = 2 ∧
    (insert_precip_data exTwoBatches).countP isCommit = 1 ∧
    (insert_precip_data exTwoBatches).countP isJoinInsert = 1 := by
  decide

/-- C2 amended: `insert_precip_data` creates the staging table once, runs
one staging bulk-insert per batch, and then issues a single join-insert
followed by a single commit at the end of the call — so a crash mid-call
loses the entire call's progress, not just one batch's. -/
theorem insert_precip_data_trace (data : List (List LongRecord)) :
    insert_precip_data data =
      DBEv.createTmp ::
        (data.map (fun d => DBEv.insertTmp (dropna d)) ++ [DBEv.joinInsert, DBEv.commit]) ∧
    (insert_precip_data data).countP isCommit = 1 ∧
    (insert_precip_data data).countP isJoinInsert = 1 ∧
    (insert_precip_data data).getLast? = some DBEv.commit := by
  have hloop : ∀ l : List (List LongRecord),
      insertLoop l = l.map (fun d => DBEv.insertTmp (dropna d)) := by
    intro l
    induction l with
    | nil => rfl
    | cons d rest ih => simp [insertLoop, ih]
  have hmap : ∀ p : DBEv → Bool, (∀ d, p (DBEv.insertTmp d) = false) →
      (data.map (fun d => DBEv.insertTmp (dropna d))).countP p = 0 := by
    intro p hp
    rw [List.countP_eq_zero]
    intro a ha
    obtain ⟨d, _, rfl⟩ := List.mem_map.mp ha
    simp [hp]
  refine ⟨by rw [insert_precip_data, hloop], ?_, ?_, ?_⟩
  · rw [insert_precip_data, hloop, List.countP_cons, List.countP_append,
      hmap isCommit (fun _ => rfl)]
    rfl
  · rw [insert_precip_data, hloop, List.countP_cons, List.countP_append,
      hmap isJoinInsert (fun _ => rfl)]
    rfl
  · rw [insert_precip_data]
    have : (DBEv.createTmp :: (insertLoop data ++ [DBEv.joinInsert, DBEv.commit])) =
        (DBEv.createTmp :: (insertLoop data ++ [DBEv.joinInsert])) ++ [DBEv.commit] := by
      simp
    rw [this, List.getLast?_concat]

/-! ## C1: the wide–long round trip -/

/-- C1 (code bug): converting the complete table `exWide` to long format
and back reproduces the hour columns and every row (stations sorted), but
the station column of the result is labelled `station`, not `Stanice` —
the source's `wide.rename(columns={'station': 'Stanice'})` discards its
result (`inplace` is not set), contradicting the docstring of
`precip_table_to_wide`, which promises a `Stanice` column. -/
theorem roundTrip_station_col_bug :
    (precip_table_to_long exWide "2024-03-05").bind precip_table_to_wide =
      some ⟨"station", hourColNames, exWide.rows⟩ ∧
    ((precip_table_to_long exWide "2024-03-05").bind precip_table_to_wide).map
      WideTable.stationCol ≠ some "Stanice" := by
  decide

/-! ## C5: records are placed at the midpoint of their hour interval -/

/-- Every `digitChar10` really is a digit character. -/
theorem digitChar10_isDigit (n : Nat) : (digitChar10 n).isDigit = true := by
  unfold digitChar10
  set k := n % 10 with hk
  have hlt : k < 10 := by omega
  interval_cases k <;> decide

/-- Reading back the digit printed by `digitChar10`. -/
theorem digitVal_digitChar10 (n : Nat) : digitVal (digitChar10 n) = n % 10 := by
  unfold digitChar10 digitVal
  set k := n % 10 with hk
  have hlt : k < 10 := by omega
  interval_cases k <;> decide

/-- The timestamp string written for hour `h` denotes `60 * h - 30` minutes
after midnight, i.e. `(h − 0.5) · 60` minutes: the midpoint of the hour-long
interval ending at hour `h`. -/
theorem minutesOfDay_midHourStr (d : Date) (h : Nat) (hh1 : 1 ≤ h) (hh2 : h ≤ 24) :
    minutesOfDay (midHourStr d h) = some (60 * h - 30) := by
  have e : minutesOfDay (midHourStr d h) =
      (if ([digitChar10 ((h - 1) / 10), digitChar10 (h - 1), '3', '0', '0', '0']).all Char.isDigit
       then some (60 * digitsVal [digitChar10 ((h - 1) / 10), digitChar10 (h - 1)] + digitsVal ['3', '0'])
       else none) := rfl
  rw [e, if_pos]
  · have v1 := digitVal_digitChar10 ((h - 1) / 10)
    have v2 := digitVal_digitChar10 (h - 1)
    simp only [digitsVal, List.foldl]
    rw [v1, v2]
    have d3 : digitVal '3' = 3 := rfl
    have d0 : digitVal '0' = 0 := rfl
    rw [d3, d0]
    congr 1
    omega
  · simp [digitChar10_isDigit]

/-- C5: on a standard wide table (station column `Stanice`, hour columns
`"1"`..`"24"`), `precip_table_to_long` emits, for each hour column
`h = j + 1` and each station row, one record whose datetime string is
`midHourStr d h` — the rendering of `date + (h − 0.5) hours` — and whose
amount is that row's cell for hour `h`; and each such timestamp denotes
`60·h − 30` minutes after midnight, the midpoint of the hour interval. -/
theorem toLong_midpoint (t : WideTable) (date : String) (d : Date) (recs : List LongRecord)
    (hst : t.stationCol = "Stanice")
    (hcols : t.hourCols = hourColNames)
    (hd : convert_date date = some d)
    (h : precip_table_to_long t date = some recs) :
    recs = ((List.range 24).map (fun j =>
      t.rows.map (fun row => ⟨row.1, row.2.getD j none, midHourStr d (j + 1)⟩))).flatten ∧
    ∀ hh, 1 ≤ hh → hh ≤ 24 → minutesOfDay (midHourStr d hh) = some (60 * hh - 30) := by
  have hl : hourLabels hourColNames = some hourNums := by decide
  have key : precip_table_to_long t date =
      some (((List.range 24).map (fun j =>
        t.rows.map (fun row => ⟨row.1, row.2.getD j none, midHourStr d (j + 1)⟩))).flatten) := by
    unfold precip_table_to_long
    rw [if_pos hst, hd, hcols, hl]
    rfl
  rw [key] at h
  refine ⟨(Option.some.inj h).symm, fun hh h1 h2 => minutesOfDay_midHourStr d hh h1 h2⟩

/-- C5 witness: end-to-end scenario B — the one-station table with only
hour `"1"` set to `2.0`, for date 2024-03-05, yields (after the null rows
are dropped at insert time) exactly one record for station `A`, amount
`2.0`, at `2024-03-05 00:30:00`, which is 30 minutes after midnight. -/
theorem toLong_midpoint_witness :
    dropna ((precip_table_to_long exWideB "2024-03-05").getD []) =
      [⟨"A", some 2, "2024-03-05 00:30:00"⟩] ∧
    minutesOfDay "2024-03-05 00:30:00" = some 30 := by
  have h := toLong_midpoint exWideB "2024-03-05" ⟨2024, 3, 5⟩
    ((precip_table_to_long exWideB "2024-03-05").getD []) rfl rfl (by decide) (by decide)
  refine ⟨by decide, ?_⟩
  have h30 := h.2 1 (by decide) (by decide)
  have es : midHourStr ⟨2024, 3, 5⟩ 1 = "2024-03-05 00:30:00" := by decide
  rwa [es] at h30

/-! ## Generator lemmas

One unfolding equation of `provideAux` for each loop branch, then the
invariants behind C3, C4, C6 and C10. -/

section Gen

variable (read : String → WideTable) (max_rows : Nat)

/-- Unfolding `dateChunks` when the head date fails to convert. -/
theorem dateChunks_cons_none {d : String} (rest : List String)
    (hconv : precip_table_to_long (read d) d = none) :
    dateChunks read (d :: rest) = dateChunks read rest := by
  simp [dateChunks, List.filterMap_cons, hconv]

/-- Unfolding `dateChunks` when the head date converts. -/
theorem dateChunks_cons_some {d : String} {c : List LongRecord} (rest : List String)
    (hconv : precip_table_to_long (read d) d = some c) :
    dateChunks read (d :: rest) = c :: dateChunks read rest := by
  simp [dateChunks, List.filterMap_cons, hconv]

/-- Loop step: the date's records fit into the open batch. -/
theorem provideAux_step_fit {d : String} (rest : List String) {df b : List LongRecord}
    (hconv : precip_table_to_long (read d) d = some df)
    (hbig : ¬df.length > max_rows)
    (hfit : b.length + df.length ≤ max_rows) :
    provideAux read max_rows (d :: rest) (some b) =
      provideAux read max_rows rest (some (b ++ df)) := by
  rw [provideAux]
  simp [hconv, hbig, hfit]

/-- Loop step: the date's records do not fit, so the open batch is yielded
and a fresh batch is started. -/
theorem provideAux_step_yield {d : String} (rest : List String) {df b : List LongRecord}
    (hconv : precip_table_to_long (read d) d = some df)
    (hbig : ¬df.length > max_rows)
    (hfit : ¬b.length + df.length ≤ max_rows) :
    provideAux read max_rows (d :: rest) (some b) =
      ⟨b :: (provideAux read max_rows rest (some df)).batches,
        (provideAux read max_rows rest (some df)).errLog,
        (provideAux read max_rows rest (some df)).raised⟩ := by
  rw [provideAux]
  simp [hconv, hbig, hfit]

/-- Loop step: the first date opens the accumulator batch. -/
theorem provideAux_step_first {d : String} (rest : List String) {df : List LongRecord}
    (hconv : precip_table_to_long (read d) d = some df)
    (hbig : ¬df.length > max_rows) :
    provideAux read max_rows (d :: rest) none =
      provideAux read max_rows rest (some df) := by
  rw [provideAux]
  simp [hconv, hbig]

/-- Loop step: one date's records exceed `max_rows` — the generator logs
the message at error severity and raises, discarding the open batch. -/
theorem provideAux_step_big {d : String} (rest : List String) {df : List LongRecord}
    (acc : Option (List LongRecord))
    (hconv : precip_table_to_long (read d) d = some df)
    (hbig : df.length > max_rows) :
    provideAux read max_rows (d :: rest) acc =
      ⟨[], [batchTooLargeMsg d df.length max_rows],
        some (GenErr.batchTooLarge (batchTooLargeMsg d df.length max_rows))⟩ := by
  rw [provideAux]
  simp [hconv, hbig]

/-- Loop step: reading/converting a date raises; the exception propagates. -/
theorem provideAux_step_fail {d : String} (rest : List String)
    (acc : Option (List LongRecord))
    (hconv : precip_table_to_long (read d) d = none) :
    provideAux read max_rows (d :: rest) acc =
      ⟨[], [], some (GenErr.conversionFailed d)⟩ := by
  rw [provideAux]
  simp [hconv]

/-- Every batch the loop yields is at most `max_rows` long, provided the
open accumulator batch is. -/
theorem provideAux_length_le (dates : List String) :
    ∀ acc : Option (List LongRecord), (∀ b, acc = some b → b.length ≤ max_rows) →
      ∀ x ∈ (provideAux read max_rows dates acc).batches, x.length ≤ max_rows := by
  induction dates with
  | nil =>
    intro acc hacc x hx
    cases acc with
    | none => simp [provideAux] at hx
    | some b =>
      simp only [provideAux, List.mem_singleton] at hx
      exact hx ▸ hacc b rfl
  | cons d rest ih =>
    intro acc hacc x hx
    rw [provideAux] at hx
    cases hconv : precip_table_to_long (read d) d with
    | none => simp [hconv] at hx
    | some df =>
      by_cases hbig : df.length > max_rows
      · simp [hconv, hbig] at hx
      · cases acc with
        | none =>
          simp only [hconv, hbig, if_false, reduceIte] at hx
          exact ih (some df) (fun b hb => by cases hb; omega) x hx
        | some b =>
          by_cases hfit : b.length + df.length ≤ max_rows
          · simp only [hconv, hbig, hfit, if_true, reduceIte] at hx
            refine ih (some (b ++ df)) (fun c hc => ?_) x hx
            cases hc
            simpa using hfit
          · simp only [hconv, hbig, hfit, if_false, reduceIte, List.mem_cons] at hx
            rcases hx with rfl | hx
            · exact hacc x rfl
            · exact ih (some df) (fun c hc => by cases hc; omega) x hx

/-- Grouping invariant of the loop, with the open batch being the
concatenation of the whole-date chunk list `bc`: the yielded batches are
concatenations of whole-date chunks, the yielded chunks form a prefix of
`bc` followed by the remaining dates' chunks, and every yielded batch
contains at least one date's chunk. -/
theorem provideAux_groups_some (dates : List String) :
    ∀ bc : List (List LongRecord), bc ≠ [] →
      ∃ groups : List (List (List LongRecord)),
        (provideAux read max_rows dates (some bc.flatten)).batches =
          groups.map (fun g => g.flatten) ∧
        groups.flatten <+: bc ++ dateChunks read dates ∧
        ∀ g ∈ groups, g ≠ [] := by
  induction dates with
  | nil =>
    intro bc hbc
    refine ⟨[bc], by simp [provideAux], ⟨[], by simp [dateChunks]⟩, by simpa using hbc⟩
  | cons d rest ih =>
    intro bc hbc
    cases hconv : precip_table_to_long (read d) d with
    | none =>
      refine ⟨[], ?_, ⟨_, rfl⟩, by simp⟩
      rw [provideAux_step_fail read max_rows rest _ hconv]
      simp
    | some df =>
      by_cases hbig : df.length > max_rows
      · refine ⟨[], ?_, ⟨_, rfl⟩, by simp⟩
        rw [provideAux_step_big read max_rows rest _ hconv hbig]
        simp
      · by_cases hfit : bc.flatten.length + df.length ≤ max_rows
        · obtain ⟨groups, hb, hpre, hne⟩ := ih (bc ++ [df]) (by simp)
          have hfl : (bc ++ [df]).flatten = bc.flatten ++ df := by simp
          rw [hfl] at hb
          refine ⟨groups, ?_, ?_, hne⟩
          · rw [provideAux_step_fit read max_rows rest hconv hbig hfit]
            exact hb
          · rw [dateChunks_cons_some read rest hconv]
            obtain ⟨t, ht⟩ := hpre
            exact ⟨t, by rw [ht]; simp⟩
        · obtain ⟨groups', hb', hpre', hne'⟩ := ih [df] (by simp)
          have hfl : ([df] : List (List LongRecord)).flatten = df := by simp
          rw [hfl] at hb'
          refine ⟨bc :: groups', ?_, ?_, ?_⟩
          · rw [provideAux_step_yield read max_rows rest hconv hbig hfit]
            simp [hb']
          · rw [dateChunks_cons_some read rest hconv]
            obtain ⟨t, ht⟩ := hpre'
            refine ⟨t, ?_⟩
            simp only [List.flatten_cons, List.append_assoc]
            rw [ht]
            simp
          · intro g hg
            rcases List.mem_cons.mp hg with rfl | hg'
            · exact hbc
            · exact hne' g hg'

/-- Grouping invariant from the start of the loop (`df_batch = None`). -/
theorem provideAux_groups_none (dates : List String) :
    ∃ groups : List (List (List LongRecord)),
      (provideAux read max_rows dates none).batches = groups.map (fun g => g.flatten) ∧
      groups.flatten <+: dateChunks read dates ∧
      ∀ g ∈ groups, g ≠ [] := by
  cases dates with
  | nil => exact ⟨[], by simp [provideAux], ⟨_, rfl⟩, by simp⟩
  | cons d rest =>
    cases hconv : precip_table_to_long (read d) d with
    | none =>
      refine ⟨[], ?_, ⟨_, rfl⟩, by simp⟩
      rw [provideAux_step_fail read max_rows rest _ hconv]
      simp
    | some df =>
      by_cases hbig : df.length > max_rows
      · refine ⟨[], ?_, ⟨_, rfl⟩, by simp⟩
        rw [provideAux_step_big read max_rows rest _ hconv hbig]
        simp
      · obtain ⟨groups, hb, hpre, hne⟩ := provideAux_groups_some read max_rows rest [df] (by simp)
        have hfl : ([df] : List (List LongRecord)).flatten = df := by simp
        rw [hfl] at hb
        refine ⟨groups, ?_, ?_, hne⟩
        · rw [provideAux_step_first read max_rows rest hconv hbig]
          exact hb
        · rw [dateChunks_cons_some read rest hconv]
          obtain ⟨t, ht⟩ := hpre
          exact ⟨t, by rw [ht]; simp⟩

/-- When every date converts and fits, the loop loses, duplicates and
reorders nothing: the concatenation of the yielded batches is the open
batch followed by every date's chunk in input order. -/
theorem provideAux_flatten_some (dates : List String) :
    ∀ b : List LongRecord,
      (∀ d ∈ dates, ∃ c, precip_table_to_long (read d) d = some c ∧ c.length ≤ max_rows) →
      (provideAux read max_rows dates (some b)).batches.flatten =
        b ++ (dateChunks read dates).flatten := by
  induction dates with
  | nil => intro b _; simp [provideAux, dateChunks]
  | cons d rest ih =>
    intro b h
    obtain ⟨c, hconv, hlen⟩ := h d (by simp)
    have hrest : ∀ d' ∈ rest, ∃ c', precip_table_to_long (read d') d' = some c' ∧
        c'.length ≤ max_rows := fun d' hd' => h d' (by simp [hd'])
    have hbig : ¬c.length > max_rows := by omega
    by_cases hfit : b.length + c.length ≤ max_rows
    · rw [provideAux_step_fit read max_rows rest hconv hbig hfit, ih (b ++ c) hrest,
        dateChunks_cons_some read rest hconv]
      simp
    · rw [provideAux_step_yield read max_rows rest hconv hbig hfit]
      simp only [List.flatten_cons]
      rw [ih c hrest, dateChunks_cons_some read rest hconv]
      simp

/-- Completeness of the whole generator run when every date converts and
fits. -/
theorem provideAux_flatten_none (dates : List String)
    (h : ∀ d ∈ dates, ∃ c, precip_table_to_long (read d) d = some c ∧ c.length ≤ max_rows) :
    (provideAux read max_rows dates none).batches.flatten =
      (dateChunks read dates).flatten := by
  cases dates with
  | nil => simp [provideAux, dateChunks]
  | cons d rest =>
    obtain ⟨c, hconv, hlen⟩ := h d (by simp)
    have hrest : ∀ d' ∈ rest, ∃ c', precip_table_to_long (read d') d' = some c' ∧
        c'.length ≤ max_rows := fun d' hd' => h d' (by simp [hd'])
    have hbig : ¬c.length > max_rows := by omega
    rw [provideAux_step_first read max_rows rest hconv hbig,
      provideAux_flatten_some read max_rows rest c hrest,
      dateChunks_cons_some read rest hconv]
    simp

/-- Reaching an oversized date: the generator logs exactly the too-large
message and raises; the batches yielded before only contain chunks of the
preceding dates, with the open batch carried in. -/
theorem provideAux_error_some (date : String) (post : List String) (cd : List LongRecord)
    (hdate : precip_table_to_long (read date) date = some cd)
    (hbig : cd.length > max_rows) (pre : List String) :
    ∀ b : List LongRecord,
      (∀ d ∈ pre, ∃ c, precip_table_to_long (read d) d = some c ∧ c.length ≤ max_rows) →
      (provideAux read max_rows (pre ++ date :: post) (some b)).raised =
        some (GenErr.batchTooLarge (batchTooLargeMsg date cd.length max_rows)) ∧
      (provideAux read max_rows (pre ++ date :: post) (some b)).errLog =
        [batchTooLargeMsg date cd.length max_rows] ∧
      (provideAux read max_rows (pre ++ date :: post) (some b)).batches.flatten <+:
        b ++ (dateChunks read pre).flatten := by
  induction pre with
  | nil =>
    intro b _
    rw [List.nil_append, provideAux_step_big read max_rows post _ hdate hbig]
    exact ⟨rfl, rfl, ⟨_, rfl⟩⟩
  | cons d rest ih =>
    intro b hok
    obtain ⟨c, hconv, hlen⟩ := hok d (by simp)
    have hrest : ∀ d' ∈ rest, ∃ c', precip_table_to_long (read d') d' = some c' ∧
        c'.length ≤ max_rows := fun d' hd' => hok d' (by simp [hd'])
    have hcb : ¬c.length > max_rows := by omega
    rw [List.cons_append]
    by_cases hfit : b.length + c.length ≤ max_rows
    · rw [provideAux_step_fit read max_rows (rest ++ date :: post) hconv hcb hfit]
      obtain ⟨h1, h2, h3⟩ := ih (b ++ c) hrest
      refine ⟨h1, h2, ?_⟩
      obtain ⟨t, ht⟩ := h3
      refine ⟨t, ?_⟩
      rw [ht, dateChunks_cons_some read rest hconv]
      simp
    · rw [provideAux_step_yield read max_rows (rest ++ date :: post) hconv hcb hfit]
      obtain ⟨h1, h2, h3⟩ := ih c hrest
      refine ⟨h1, h2, ?_⟩
      obtain ⟨t, ht⟩ := h3
      refine ⟨t, ?_⟩
      simp only [List.flatten_cons, List.append_assoc]
      rw [ht, dateChunks_cons_some read rest hconv]
      simp

/-- Reaching an oversized date from the start of the loop. -/
theorem provideAux_error_none (date : String) (post : List String) (cd : List LongRecord)
    (hdate : precip_table_to_long (read date) date = some cd)
    (hbig : cd.length > max_rows) (pre : List String)
    (hok : ∀ d ∈ pre, ∃ c, precip_table_to_long (read d) d = some c ∧ c.length ≤ max_rows) :
    (provideAux read max_rows (pre ++ date :: post) none).raised =
      some (GenErr.batchTooLarge (batchTooLargeMsg date cd.length max_rows)) ∧
    (provideAux read max_rows (pre ++ date :: post) none).errLog =
      [batchTooLargeMsg date cd.length max_rows] ∧
    (provideAux read max_rows (pre ++ date :: post) none).batches.flatten <+:
      (dateChunks read pre).flatten := by
  cases pre with
  | nil =>
    rw [List.nil_append, provideAux_step_big read max_rows post _ hdate hbig]
    exact ⟨rfl, rfl, ⟨_, rfl⟩⟩
  | cons d rest =>
    obtain ⟨c, hconv, hlen⟩ := hok d (by simp)
    have hrest : ∀ d' ∈ rest, ∃ c', precip_table_to_long (read d') d' = some c' ∧
        c'.length ≤ max_rows := fun d' hd' => hok d' (by simp [hd'])
    have hcb : ¬c.length > max_rows := by omega
    rw [List.cons_append, provideAux_step_first read max_rows (rest ++ date :: post) hconv hcb]
    obtain ⟨h1, h2, h3⟩ := provideAux_error_some read max_rows date post cd hdate hbig rest c hrest
    refine ⟨h1, h2, ?_⟩
    obtain ⟨t, ht⟩ := h3
    refine ⟨t, ?_⟩
    rw [ht, dateChunks_cons_some read rest hconv]
    simp

end Gen

/-! ## C3, C4, C6, C10: the batch generator -/

/-- C3: every batch yielded by `provide_data_for_dates` (and by its
identical twin `generate_data_for_dates`) has at most `max_rows` records,
for every read function, date list and `max_rows`. -/
theorem provide_batches_le_max (read : String → WideTable) (dates : List String)
    (max_rows : Nat) :
    ∀ x ∈ (provide_data_for_dates read dates max_rows).batches, x.length ≤ max_rows :=
  provideAux_length_le read max_rows dates none (fun _ hb => nomatch hb)

/-- C3 witness: a concrete run yielding one (empty) batch within the
default 60000-row cap. -/
theorem provide_batches_le_max_witness :
    ([] : List LongRecord).length ≤ 60000 :=
  provide_batches_le_max exReadEmpty ["2024-03-05"] 60000 [] (by decide)

/-- C4: no batch boundary splits one date's records: the yielded batches
are exactly the concatenations of a partition of a prefix of the per-date
chunk list into nonempty runs of consecutive whole dates — each date's
records land contiguously inside a single batch. -/
theorem provide_no_date_split (read : String → WideTable) (dates : List String)
    (max_rows : Nat) :
    ∃ groups : List (List (List LongRecord)),
      (provide_data_for_dates read dates max_rows).batches =
        groups.map (fun g => g.flatten) ∧
      groups.flatten <+: dateChunks read dates ∧
      ∀ g ∈ groups, g ≠ [] :=
  provideAux_groups_none read max_rows dates

/-- C10: when every date's chunk converts and fits under `max_rows`,
concatenating the yielded batches in order gives exactly the concatenation
of `toLong(read(d), d)` over the dates in input order — nothing lost,
duplicated or reordered; and the empty date list yields no batches. -/
theorem provide_batches_complete (read : String → WideTable) (dates : List String)
    (max_rows : Nat)
    (h : ∀ d ∈ dates, ∃ c, precip_table_to_long (read d) d = some c ∧ c.length ≤ max_rows) :
    (provide_data_for_dates read dates max_rows).batches.flatten =
      (dateChunks read dates).flatten ∧
    provide_data_for_dates read [] max_rows = ⟨[], [], none⟩ :=
  ⟨provideAux_flatten_none read max_rows dates h, rfl⟩

/-- C10 witness: a concrete two-date run. -/
theorem provide_batches_complete_witness :
    (provide_data_for_dates exReadSmall ["2024-03-05", "2024-03-06"] 60000).batches.flatten =
      (dateChunks exReadSmall ["2024-03-05", "2024-03-06"]).flatten := by
  refine (provide_batches_complete exReadSmall ["2024-03-05", "2024-03-06"] 60000 ?_).1
  intro d hd
  simp only [List.mem_cons, List.not_mem_nil, or_false] at hd
  rcases hd with rfl | rfl <;> exact ⟨_, rfl, by decide⟩

/-- C6: if one date's record count exceeds `max_rows` (and the dates
before it are fine), the generator raises `RuntimeError` with the
too-large message for that date, the same message is logged at error
severity (it is the only error-log entry of the run), and the oversized
date's records appear in no yielded batch — the batches only hold chunks
of the preceding dates. -/
theorem provide_oversize_raises (read : String → WideTable) (max_rows : Nat)
    (pre post : List String) (date : String) (cd : List LongRecord)
    (hok : ∀ d ∈ pre, ∃ c, precip_table_to_long (read d) d = some c ∧ c.length ≤ max_rows)
    (hdate : precip_table_to_long (read date) date = some cd)
    (hbig : cd.length > max_rows) :
    (provide_data_for_dates read (pre ++ date :: post) max_rows).raised =
      some (GenErr.batchTooLarge (batchTooLargeMsg date cd.length max_rows)) ∧
    (provide_data_for_dates read (pre ++ date :: post) max_rows).errLog =
      [batchTooLargeMsg date cd.length max_rows] ∧
    (provide_data_for_dates read (pre ++ date :: post) max_rows).batches.flatten <+:
      (dateChunks read pre).flatten :=
  provideAux_error_none read max_rows date post cd hdate hbig pre hok

/-- C6 witness: a 2-record date against a cap of 1 raises and logs the
too-large message. -/
theorem provide_oversize_raises_witness :
    (provide_data_for_dates exReadSmall ["2024-03-05"] 1).raised =
      some (GenErr.batchTooLarge (batchTooLargeMsg "2024-03-05" 2 1)) ∧
    (provide_data_for_dates exReadSmall ["2024-03-05"] 1).errLog =
      [batchTooLargeMsg "2024-03-05" 2 1] := by
  have h := provide_oversize_raises exReadSmall 1 [] [] "2024-03-05"
    ((precip_table_to_long (exReadSmall "2024-03-05") "2024-03-05").getD [])
    (by simp) rfl (by decide)
  exact ⟨h.1, h.2.1⟩

/-! ## C8: the download range guard -/

/-- C8: `download_precip_date` computes `offset = (today − date).days` and
raises the range `ValueError` — with the empty request trace, i.e. before
any network call — exactly when `offset` lies outside
`[offset_min, 7]` with `offset_min = 0` if `allow_today` else `1`; for
offsets inside the range it performs the single network fetch and never
raises the range error. -/
theorem download_range_guard (today : Date) (fetch : Int → WideTable × Date)
    (dat : String) (dd : Date) (allow_today : Bool)
    (hparse : date_fromisoformat dat = some dd) :
    ((((toordinal today : Int) - (toordinal dd : Int)) < (if allow_today then (0 : Int) else 1) ∨
        ((toordinal today : Int) - (toordinal dd : Int)) > 7) →
      download_precip_date today fetch dat allow_today = ([], Except.error DLErr.range)) ∧
    ((if allow_today then (0 : Int) else 1) ≤ ((toordinal today : Int) - (toordinal dd : Int)) →
      ((toordinal today : Int) - (toordinal dd : Int)) ≤ 7 →
      (download_precip_date today fetch dat allow_today).1 =
        [(toordinal today : Int) - (toordinal dd : Int)] ∧
      (download_precip_date today fetch dat allow_today).2 ≠ Except.error DLErr.range) := by
  have key : download_precip_date today fetch dat allow_today =
      (if ((toordinal today : Int) - (toordinal dd : Int) < (if allow_today then (0 : Int) else 1) ∨
          (toordinal today : Int) - (toordinal dd : Int) > 7) then
        ([], Except.error DLErr.range)
      else
        if convert_date dat = some (fetch ((toordinal today : Int) - (toordinal dd : Int))).2 then
          ([(toordinal today : Int) - (toordinal dd : Int)],
            Except.ok (fetch ((toordinal today : Int) - (toordinal dd : Int))).1)
        else
          ([(toordinal today : Int) - (toordinal dd : Int)], Except.error DLErr.mismatch)) := by
    unfold download_precip_date
    rw [hparse]
  rw [key]
  set off : Int := (toordinal today : Int) - (toordinal dd : Int) with hoff
  set omin : Int := (if allow_today then (0 : Int) else 1) with homin
  constructor
  · intro hout
    rw [if_pos hout]
  · intro hmin hmax
    rw [if_neg (by omega)]
    constructor
    · split <;> rfl
    · split <;> simp

/-- C8 witness: requesting 2024-03-05 on 2024-03-10 (offset 5, inside the
window with `allow_today = false`) fetches offset 5 over the network and
does not raise the range error. -/
theorem download_range_guard_witness :
    (download_precip_date ⟨2024, 3, 10⟩ (fun _ => (exWide, ⟨2024, 3, 5⟩)) "2024-03-05" false).1 =
      [5] ∧
    (download_precip_date ⟨2024, 3, 10⟩ (fun _ => (exWide, ⟨2024, 3, 5⟩)) "2024-03-05" false).2 ≠
      Except.error DLErr.range := by
  have h := download_range_guard ⟨2024, 3, 10⟩ (fun _ => (exWide, ⟨2024, 3, 5⟩)) "2024-03-05"
    ⟨2024, 3, 5⟩ false (by decide)
  have h2 := h.2 (by decide) (by decide)
  refine ⟨?_, h2.2⟩
  rw [h2.1]
  decide

end Precip
